import Mathlib

/-!
Shallow embedding of the jitter core of the governor crate
(src/src/jitter.rs), together with the parts of the Rust standard
library that the jitter code calls: `std::time::Duration`,
`std::time::Instant` (Unix `Timespec` representation) and the
binary32 floating-point scaling used by `Duration::mul_f32`.

Conventions of the embedding:
  * machine integers are `Nat` with explicit bounds (`u64`, `i64`
    limits); an operation that panics in Rust returns `Option`
    (`none` = panic);
  * `f32` values are rationals on the binary32 grid; every Rust
    `f32` operation is the exact rational operation followed by
    `roundF32`, round to nearest with ties to even, which is the
    IEEE-754 behaviour for the finite range (all values reachable
    from `Duration` inputs stay far below the binary32 overflow
    threshold of 2^128);
  * the ambient random source (`rand::random::<f32>()`) is an
    opaque draw `r`, passed explicitly; real draws lie in [0, 1).
-/

/-! ## Machine-integer limits and second/nanosecond bookkeeping -/

def U64_LIMIT : Nat := 18446744073709551616

def I64_LIMIT : Nat := 9223372036854775808

def NANOS_PER_SEC : Nat := 1000000000

/-- Checked `u64` addition: `a.checked_add(b)` on `u64`. -/
def u64CheckedAdd (a b : Nat) : Option Nat :=
  if a + b < U64_LIMIT then some (a + b) else none

/-- Checked addition of a `u64` quantity onto a non-negative `i64`
(`i64::checked_add_unsigned` with a non-negative receiver, as used by
the monotonic-clock `Timespec`). -/
def i64CheckedAddNat (a b : Nat) : Option Nat :=
  if a + b < I64_LIMIT then some (a + b) else none

/-! ## The binary32 model

`roundF32` sends an exact rational to the nearest binary32 value,
ties to even.  The grid has spacing `2^(e-23)` on the binade
`[2^e, 2^(e+1))` for exponents `e ≥ -126`, and spacing `2^-149`
below `2^-126` (subnormals). -/

/-- Floor of the base-2 logarithm of a positive rational. -/
def qlog2 (x : ℚ) : Int :=
  let e : Int := (Nat.log2 x.num.natAbs : Int) - (Nat.log2 x.den : Int)
  if x < (2 : ℚ) ^ e then e - 1 else e

/-- Floor of a non-negative rational as a natural number. -/
def qfloorNat (q : ℚ) : Nat := q.num.natAbs / q.den

/-- Round a positive rational to the binary32 grid, nearest, ties to
even.  (Junk on non-positive input; `roundF32` guards the sign.) -/
def roundF32Pos (x : ℚ) : ℚ :=
  let e : Int := qlog2 x
  let sp : ℚ := (2 : ℚ) ^ (max (e - 23) (-149 : Int))
  let q : ℚ := x / sp
  let n : Nat := qfloorNat q
  let fr : ℚ := q - (n : ℚ)
  let m : Nat :=
    if fr < 1 / 2 then n
    else if 1 / 2 < fr then n + 1
    else if n % 2 = 0 then n else n + 1
  (m : ℚ) * sp

/-- Round an exact rational to the nearest binary32 value (ties to
even).  Every Rust `f32` arithmetic operation in this file is the
exact rational operation followed by this rounding. -/
def roundF32 (x : ℚ) : ℚ :=
  if x = 0 then 0
  else if x < 0 then -(roundF32Pos (-x)) else roundF32Pos x

/-- Round a non-negative rational to the nearest integer, ties to
even: the rounding `Duration::try_from_secs_f32` applies at
nanosecond granularity. -/
def roundTiesEvenNat (q : ℚ) : Nat :=
  let n : Nat := qfloorNat q
  let fr : ℚ := q - (n : ℚ)
  if fr < 1 / 2 then n
  else if 1 / 2 < fr then n + 1
  else if n % 2 = 0 then n else n + 1

/-! ## std::time::Duration -/

/-- `std::time::Duration`: a `u64` count of seconds plus a nanosecond
part; constructed values keep `secs < 2^64` and `nanos < 10^9`
(`Duration.valid`). -/
structure Duration where
  secs : Nat
  nanos : Nat
deriving DecidableEq

/-- The representation invariant every Rust-constructed `Duration`
satisfies. -/
def Duration.valid (d : Duration) : Prop :=
  d.secs < U64_LIMIT ∧ d.nanos < NANOS_PER_SEC

instance (d : Duration) : Decidable (Duration.valid d) :=
  decidable_of_iff (d.secs < U64_LIMIT ∧ d.nanos < NANOS_PER_SEC) Iff.rfl

/-- `Duration::MAX`. -/
def durationMax : Duration := ⟨U64_LIMIT - 1, NANOS_PER_SEC - 1⟩

/-- `Duration::from_secs`. -/
def Duration.fromSecs (s : Nat) : Duration := ⟨s, 0⟩

/-- `Duration::new(secs, nanos)`: carries surplus nanoseconds into the
seconds (the `u64` overflow panic of the carry is unreachable at the
only call site in jitter.rs, `Duration::new(0, 0)`). -/
def Duration.mkNew (secs nanos : Nat) : Duration :=
  ⟨secs + nanos / NANOS_PER_SEC, nanos % NANOS_PER_SEC⟩

/-- `Duration::checked_add`, which also gives the behaviour of `+` on
durations: `impl Add for Duration` calls `checked_add` and panics
(`none` here) when it overflows. -/
def Duration.checkedAdd (a b : Duration) : Option Duration :=
  if a.secs + b.secs < U64_LIMIT then
    if a.nanos + b.nanos < NANOS_PER_SEC then
      some ⟨a.secs + b.secs, a.nanos + b.nanos⟩
    else if a.secs + b.secs + 1 < U64_LIMIT then
      some ⟨a.secs + b.secs + 1, a.nanos + b.nanos - NANOS_PER_SEC⟩
    else none
  else none

/-- The order `derive(PartialOrd, Ord)` gives `Duration`:
lexicographic on (secs, nanos). -/
def Duration.le (a b : Duration) : Prop :=
  a.secs < b.secs ∨ (a.secs = b.secs ∧ a.nanos ≤ b.nanos)

instance (a b : Duration) : Decidable (Duration.le a b) :=
  decidable_of_iff
    (a.secs < b.secs ∨ (a.secs = b.secs ∧ a.nanos ≤ b.nanos)) Iff.rfl

/-- `Duration::as_secs_f32`:
`(self.secs as f32) + (self.nanos as f32) / (NANOS_PER_SEC as f32)`,
every cast and arithmetic step rounded to binary32. -/
def Duration.asSecsF32 (d : Duration) : ℚ :=
  roundF32 (roundF32 (d.secs : ℚ) +
    roundF32 (roundF32 (d.nanos : ℚ) / roundF32 (NANOS_PER_SEC : ℚ)))

/-- `Duration::from_secs_f32` (via `try_from_secs_f32`): panics
(`none`) on a negative value or on 2^64 seconds or more; otherwise
rounds to the nearest nanosecond, ties to even. -/
def Duration.fromSecsF32 (x : ℚ) : Option Duration :=
  if x < 0 then none
  else if (U64_LIMIT : ℚ) ≤ x then none
  else
    let total : Nat := roundTiesEvenNat (x * (NANOS_PER_SEC : ℚ))
    some ⟨total / NANOS_PER_SEC, total % NANOS_PER_SEC⟩

/-- `Duration::mul_f32`:
`Duration::from_secs_f32(rhs * self.as_secs_f32())`, the multiply
rounded to binary32. -/
def Duration.mulF32 (d : Duration) (r : ℚ) : Option Duration :=
  Duration.fromSecsF32 (roundF32 (r * d.asSecsF32))

/-! ## std::time::Instant -/

/-- `std::time::Instant` on a Unix target: a monotonic-clock
`Timespec`, here a non-negative reading with `secs` below the `i64`
limit and `nanos < 10^9`. -/
structure Instant where
  secs : Nat
  nanos : Nat
deriving DecidableEq

/-- The representation invariant of a monotonic-clock `Instant`. -/
def Instant.valid (t : Instant) : Prop :=
  t.secs < I64_LIMIT ∧ t.nanos < NANOS_PER_SEC

instance (t : Instant) : Decidable (Instant.valid t) :=
  decidable_of_iff (t.secs < I64_LIMIT ∧ t.nanos < NANOS_PER_SEC) Iff.rfl

/-- `Timespec::checked_add_duration`, which also gives `+` on
`Instant`: `impl Add<Duration> for Instant` calls `checked_add` and
panics (`none` here) when it overflows. -/
def Instant.checkedAdd (t : Instant) (d : Duration) : Option Instant :=
  if t.secs + d.secs < I64_LIMIT then
    if t.nanos + d.nanos < NANOS_PER_SEC then
      some ⟨t.secs + d.secs, t.nanos + d.nanos⟩
    else if t.secs + d.secs + 1 < I64_LIMIT then
      some ⟨t.secs + d.secs + 1, t.nanos + d.nanos - NANOS_PER_SEC⟩
    else none
  else none

/-- The order on `Instant`: lexicographic on (secs, nanos). -/
def Instant.le (a b : Instant) : Prop :=
  a.secs < b.secs ∨ (a.secs = b.secs ∧ a.nanos ≤ b.nanos)

instance (a b : Instant) : Decidable (Instant.le a b) :=
  decidable_of_iff
    (a.secs < b.secs ∨ (a.secs = b.secs ∧ a.nanos ≤ b.nanos)) Iff.rfl

/-! ## The Jitter interval specification (src/src/jitter.rs) -/

/-- `pub struct Jitter { min: Duration, interval: Duration }`. -/
structure Jitter where
  min : Duration
  interval : Duration
deriving DecidableEq

/-- `Jitter::NONE`: both bounds `Duration::from_secs(0)`. -/
def Jitter.NONE : Jitter := ⟨Duration.fromSecs 0, Duration.fromSecs 0⟩

/-- `Jitter::up_to(max)`: `min` is `Duration::new(0, 0)`, `interval`
is `max`. -/
def Jitter.up_to (mx : Duration) : Jitter := ⟨Duration.mkNew 0 0, mx⟩

/-- `Jitter::new(min, interval)`. -/
def Jitter.new (mn interval : Duration) : Jitter := ⟨mn, interval⟩

/-- The `derive(Default)` instance: both fields are the default
`Duration`, zero seconds and zero nanoseconds. -/
def Jitter.default : Jitter := ⟨⟨0, 0⟩, ⟨0, 0⟩⟩

/-- `Jitter::get`, with the draw `range = rand::random::<f32>()`
passed explicitly as `r`: `self.min + self.interval.mul_f32(range)`.
Both the scaling and the duration addition can panic (`none`). -/
def Jitter.get (j : Jitter) (r : ℚ) : Option Duration :=
  match j.interval.mulF32 r with
  | none => none
  | some off => j.min.checkedAdd off

/-- `impl Add<Duration> for Jitter`: `self.get() + rhs`. -/
def Jitter.addDuration (j : Jitter) (r : ℚ) (rhs : Duration) : Option Duration :=
  match j.get r with
  | none => none
  | some off => off.checkedAdd rhs

/-- `impl Add<Instant> for Jitter`: `rhs + self.get()`. -/
def Jitter.addInstant (j : Jitter) (r : ℚ) (rhs : Instant) : Option Instant :=
  match j.get r with
  | none => none
  | some off => rhs.checkedAdd off

/-! ## The call frame of a combinator invocation

The source mutates nothing: `Jitter` and the reference argument are
`Copy` values taken by value, and the only ambient effect is the one
draw `rand::random::<f32>()` consumes.  A world record makes that
frame explicit: the random source is a stream `rng` with a cursor
`k`, and one combinator call reads `rng k` and advances the cursor
by one. -/

structure WorldDur where
  j : Jitter
  rhs : Duration
  rng : Nat → ℚ
  k : Nat

/-- One invocation of `jitter + rhs` for a duration `rhs`: the result
together with the world after the call. -/
def stepAddDuration (w : WorldDur) : Option Duration × WorldDur :=
  (Jitter.addDuration w.j (w.rng w.k) w.rhs, ⟨w.j, w.rhs, w.rng, w.k + 1⟩)

structure WorldInst where
  j : Jitter
  rhs : Instant
  rng : Nat → ℚ
  k : Nat

/-- One invocation of `jitter + rhs` for an instant `rhs`: the result
together with the world after the call. -/
def stepAddInstant (w : WorldInst) : Option Instant × WorldInst :=
  (Jitter.addInstant w.j (w.rng w.k) w.rhs, ⟨w.j, w.rhs, w.rng, w.k + 1⟩)

/-! ## Concrete values for the overflow counterexample -/

/-- A spec whose sampled offset is always exactly `Duration::MAX`:
`Jitter::new(Duration::MAX, Duration::from_secs(0))`. -/
def jitterOverflowSpec : Jitter := Jitter.new durationMax (Duration.fromSecs 0)

/-- One nanosecond. -/
def oneNano : Duration := ⟨0, 1⟩

/-! ## Helper lemmas -/

theorem roundF32_zero : roundF32 0 = 0 := by
  simp [roundF32]

theorem roundTiesEvenNat_zero : roundTiesEvenNat 0 = 0 := by
  unfold roundTiesEvenNat qfloorNat
  norm_num

theorem fromSecsF32_zero : Duration.fromSecsF32 0 = some ⟨0, 0⟩ := by
  unfold Duration.fromSecsF32
  rw [if_neg (by norm_num), if_neg (by norm_num [U64_LIMIT])]
  simp [roundTiesEvenNat_zero]

theorem asSecsF32_zeroDur : Duration.asSecsF32 ⟨0, 0⟩ = 0 := by
  unfold Duration.asSecsF32
  simp [roundF32_zero]

theorem mulF32_zeroDur (r : ℚ) : Duration.mulF32 ⟨0, 0⟩ r = some ⟨0, 0⟩ := by
  unfold Duration.mulF32
  rw [asSecsF32_zeroDur, mul_zero, roundF32_zero, fromSecsF32_zero]

theorem checkedAdd_zero_right (d : Duration) (h : d.valid) :
    Duration.checkedAdd d ⟨0, 0⟩ = some d := by
  obtain ⟨s, n⟩ := d
  obtain ⟨h1, h2⟩ := h
  simp_all [Duration.checkedAdd, Duration.valid]

theorem checkedAdd_zero_left (d : Duration) (h : d.valid) :
    Duration.checkedAdd ⟨0, 0⟩ d = some d := by
  obtain ⟨s, n⟩ := d
  obtain ⟨h1, h2⟩ := h
  simp_all [Duration.checkedAdd, Duration.valid]

theorem instant_checkedAdd_zero (t : Instant) (h : t.valid) :
    Instant.checkedAdd t ⟨0, 0⟩ = some t := by
  obtain ⟨s, n⟩ := t
  obtain ⟨h1, h2⟩ := h
  simp_all [Instant.checkedAdd, Instant.valid]

theorem jitter_get_zero_interval (mn : Duration) (r : ℚ) (h : mn.valid) :
    (Jitter.new mn (Duration.fromSecs 0)).get r = some mn := by
  unfold Jitter.get
  rw [show (Jitter.new mn (Duration.fromSecs 0)).interval = ⟨0, 0⟩ from rfl,
    mulF32_zeroDur r]
  exact checkedAdd_zero_right mn h

theorem jitter_get_none (r : ℚ) : Jitter.NONE.get r = some ⟨0, 0⟩ :=
  jitter_get_zero_interval (Duration.fromSecs 0) r (by decide)

theorem none_addDuration (r : ℚ) (d : Duration) (h : d.valid) :
    Jitter.NONE.addDuration r d = some d := by
  unfold Jitter.addDuration
  rw [jitter_get_none r]
  exact checkedAdd_zero_left d h

theorem none_addInstant (r : ℚ) (t : Instant) (h : t.valid) :
    Jitter.NONE.addInstant r t = some t := by
  unfold Jitter.addInstant
  rw [jitter_get_none r]
  exact instant_checkedAdd_zero t h

theorem jitter_get_eq_of_mul (j : Jitter) (r : ℚ) (off : Duration)
    (h : j.interval.mulF32 r = some off) :
    j.get r = j.min.checkedAdd off := by
  unfold Jitter.get
  rw [h]

theorem addDuration_eq_of_get (j : Jitter) (r : ℚ) (off rhs : Duration)
    (h : j.get r = some off) :
    j.addDuration r rhs = off.checkedAdd rhs := by
  unfold Jitter.addDuration
  rw [h]

theorem addInstant_eq_of_get (j : Jitter) (r : ℚ) (off : Duration) (rhs : Instant)
    (h : j.get r = some off) :
    j.addInstant r rhs = rhs.checkedAdd off := by
  unfold Jitter.addInstant
  rw [h]

theorem checkedAdd_right_le (a b v : Duration)
    (h : Duration.checkedAdd a b = some v) : Duration.le b v := by
  unfold Duration.checkedAdd at h
  split_ifs at h with h1 h2 h3 <;>
    · obtain rfl := (Option.some.inj h).symm
      unfold Duration.le
      dsimp only
      omega

theorem instant_checkedAdd_left_le (t : Instant) (d : Duration) (u : Instant)
    (h : Instant.checkedAdd t d = some u) : Instant.le t u := by
  unfold Instant.checkedAdd at h
  split_ifs at h with h1 h2 h3 <;>
    · obtain rfl := (Option.some.inj h).symm
      unfold Instant.le
      dsimp only
      omega

/-! ## The claims -/

/-- C2, counterexample: with the spec `Jitter::new(Duration::MAX,
Duration::from_secs(0))`, the draw 0 and the reference duration of
one nanosecond, the sampled offset is exactly `Duration::MAX`, the
addition overflows, and the combinator panics (`none`) instead of
returning the saturated maximum `some durationMax`; so the result is
not at least the reference either. -/
theorem claim_C2_counterexample :
    Jitter.addDuration jitterOverflowSpec 0 oneNano = none ∧
    Jitter.addDuration jitterOverflowSpec 0 oneNano ≠ some durationMax := by
  have hmul : jitterOverflowSpec.interval.mulF32 0 = some ⟨0, 0⟩ := mulF32_zeroDur 0
  have hget : Jitter.get jitterOverflowSpec 0 = some durationMax := by
    rw [jitter_get_eq_of_mul jitterOverflowSpec 0 ⟨0, 0⟩ hmul]
    exact checkedAdd_zero_right durationMax (by decide)
  have h1 : Jitter.addDuration jitterOverflowSpec 0 oneNano = none := by
    rw [addDuration_eq_of_get jitterOverflowSpec 0 durationMax oneNano hget]
    decide
  exact ⟨h1, by rw [h1]; simp⟩

/-- C2, amended: when adding the sampled offset to the reference
duration or instant would exceed the representable maximum, the
combinator panics (embedded: returns no result) rather than
saturating or wrapping; whenever a combinator does return a result,
the result is at least the reference. -/
theorem claim_C2_overflow_panics_and_monotone
    (j : Jitter) (r : ℚ) (d : Duration) (t : Instant) :
    (∀ v : Duration, Jitter.addDuration j r d = some v → Duration.le d v) ∧
    (∀ u : Instant, Jitter.addInstant j r t = some u → Instant.le t u) ∧
    (∀ off : Duration, Jitter.get j r = some off →
      Duration.checkedAdd off d = none → Jitter.addDuration j r d = none) ∧
    (∀ off : Duration, Jitter.get j r = some off →
      Instant.checkedAdd t off = none → Jitter.addInstant j r t = none) := by
  refine ⟨?_, ?_, ?_, ?_⟩
  · intro v hv
    unfold Jitter.addDuration at hv
    cases hg : Jitter.get j r with
    | none => rw [hg] at hv; exact Option.noConfusion hv
    | some off => rw [hg] at hv; exact checkedAdd_right_le off d v hv
  · intro u hu
    unfold Jitter.addInstant at hu
    cases hg : Jitter.get j r with
    | none => rw [hg] at hu; exact Option.noConfusion hu
    | some off => rw [hg] at hu; exact instant_checkedAdd_left_le t off u hu
  · intro off hg hn
    unfold Jitter.addDuration
    rw [hg]
    exact hn
  · intro off hg hn
    unfold Jitter.addInstant
    rw [hg]
    exact hn

/-- C2, witness for the amended claim: a concrete non-overflowing
call returns a result at least the reference. -/
theorem claim_C2_overflow_witness : Duration.le ⟨24, 0⟩ ⟨24, 0⟩ :=
  (claim_C2_overflow_panics_and_monotone Jitter.NONE (1 / 2) ⟨24, 0⟩ ⟨0, 0⟩).1
    ⟨24, 0⟩ (none_addDuration (1 / 2) ⟨24, 0⟩ (by decide))

/-- C5: for every constructed spec with a zero interval and every
draw r in [0, 1), sampling returns exactly `min`, with no dependence
on the drawn value. -/
theorem claim_C5_zero_span_samples_min (mn : Duration) (r : ℚ)
    (hmn : mn.valid) (_h0 : 0 ≤ r) (_h1 : r < 1) :
    (Jitter.new mn (Duration.fromSecs 0)).get r = some mn :=
  jitter_get_zero_interval mn r hmn

/-- C5, witness: a concrete spec with zero span samples exactly its
minimum at the draw 1/2. -/
theorem claim_C5_zero_span_witness :
    Duration.valid ⟨7, 500⟩ ∧ (0 : ℚ) ≤ 1 / 2 ∧ (1 : ℚ) / 2 < 1 ∧
    (Jitter.new ⟨7, 500⟩ (Duration.fromSecs 0)).get (1 / 2) = some ⟨7, 500⟩ :=
  ⟨by decide, by norm_num, by norm_num,
    claim_C5_zero_span_samples_min ⟨7, 500⟩ (1 / 2) (by decide)
      (by norm_num) (by norm_num)⟩

/-- C6: `up_to(max)` builds the same spec as
`new(Duration::from_secs(0), max)` — the same stored fields, hence
the same sampling behaviour at every draw. -/
theorem claim_C6_up_to_eq_new (mx : Duration) :
    Jitter.up_to mx = Jitter.new (Duration.fromSecs 0) mx ∧
    ∀ r : ℚ, (Jitter.up_to mx).get r = (Jitter.new (Duration.fromSecs 0) mx).get r := by
  have h : Jitter.up_to mx = Jitter.new (Duration.fromSecs 0) mx := by
    simp [Jitter.up_to, Jitter.new, Duration.mkNew, Duration.fromSecs]
  exact ⟨h, fun r => by rw [h]⟩

/-- C7: the zero-jitter constant `Jitter::NONE` combined with any
valid duration yields exactly that duration, and combined with any
valid instant yields exactly that instant, for every draw. -/
theorem claim_C7_none_is_identity (d : Duration) (t : Instant) (r : ℚ)
    (hd : d.valid) (ht : t.valid) :
    Jitter.NONE.addDuration r d = some d ∧ Jitter.NONE.addInstant r t = some t :=
  ⟨none_addDuration r d hd, none_addInstant r t ht⟩

/-- C7, witness: the zero-jitter constant is the identity on a
concrete duration and a concrete instant at the draw 1/3. -/
theorem claim_C7_none_identity_witness :
    Duration.valid ⟨24, 0⟩ ∧ Instant.valid ⟨100, 5⟩ ∧
    (Jitter.NONE.addDuration (1 / 3) ⟨24, 0⟩ = some ⟨24, 0⟩ ∧
      Jitter.NONE.addInstant (1 / 3) ⟨100, 5⟩ = some ⟨100, 5⟩) :=
  ⟨by decide, by decide,
    claim_C7_none_is_identity ⟨24, 0⟩ ⟨100, 5⟩ (1 / 3) (by decide) (by decide)⟩

/-- C8: each combinator call is pure apart from consuming one random
draw: its result is a function of the spec fields, the draw and the
reference, and the world after the call carries the spec, the
reference and the random stream unchanged, with only the draw cursor
advanced by one. -/
theorem claim_C8_combinators_pure (w : WorldDur) (v : WorldInst) :
    (stepAddDuration w).1 = Jitter.addDuration w.j (w.rng w.k) w.rhs ∧
    (stepAddDuration w).2.j = w.j ∧ (stepAddDuration w).2.rhs = w.rhs ∧
    (stepAddDuration w).2.rng = w.rng ∧ (stepAddDuration w).2.k = w.k + 1 ∧
    (stepAddInstant v).1 = Jitter.addInstant v.j (v.rng v.k) v.rhs ∧
    (stepAddInstant v).2.j = v.j ∧ (stepAddInstant v).2.rhs = v.rhs ∧
    (stepAddInstant v).2.rng = v.rng ∧ (stepAddInstant v).2.k = v.k + 1 :=
  ⟨rfl, rfl, rfl, rfl, rfl, rfl, rfl, rfl, rfl, rfl⟩

/-- C9: the derived `Default` instance of `Jitter` equals the
zero-jitter constant `NONE`, and a default-constructed spec samples
exactly the zero duration on every draw. -/
theorem claim_C9_default_is_none :
    Jitter.default = Jitter.NONE ∧
    ∀ r : ℚ, Jitter.default.get r = some (Duration.fromSecs 0) :=
  ⟨rfl, fun r => jitter_get_none r⟩

/-- C10: sampling and both combinators are deterministic given the
draw: equal spec fields, an equal draw and equal references give
equal results. -/
theorem claim_C10_deterministic (j1 j2 : Jitter) (r1 r2 : ℚ)
    (d1 d2 : Duration) (t1 t2 : Instant)
    (hmin : j1.min = j2.min) (hint : j1.interval = j2.interval)
    (hr : r1 = r2) (hd : d1 = d2) (ht : t1 = t2) :
    Jitter.get j1 r1 = Jitter.get j2 r2 ∧
    Jitter.addDuration j1 r1 d1 = Jitter.addDuration j2 r2 d2 ∧
    Jitter.addInstant j1 r1 t1 = Jitter.addInstant j2 r2 t2 := by
  have hj : j1 = j2 := by
    obtain ⟨m1, i1⟩ := j1
    obtain ⟨m2, i2⟩ := j2
    dsimp only at hmin hint
    rw [hmin, hint]
  subst hj hr hd ht
  exact ⟨rfl, rfl, rfl⟩

/-- C10, witness: determinism applied at a concrete spec, draw and
references. -/
theorem claim_C10_deterministic_witness :
    Jitter.get Jitter.NONE (1 / 4) = Jitter.get Jitter.NONE (1 / 4) ∧
    Jitter.addDuration Jitter.NONE (1 / 4) ⟨1, 1⟩ =
      Jitter.addDuration Jitter.NONE (1 / 4) ⟨1, 1⟩ ∧
    Jitter.addInstant Jitter.NONE (1 / 4) ⟨2, 2⟩ =
      Jitter.addInstant Jitter.NONE (1 / 4) ⟨2, 2⟩ :=
  claim_C10_deterministic Jitter.NONE Jitter.NONE (1 / 4) (1 / 4)
    ⟨1, 1⟩ ⟨1, 1⟩ ⟨2, 2⟩ ⟨2, 2⟩ rfl rfl rfl rfl rfl
